import Mathlib

/-!
Verification of the Erupe channel server core (`server/channelserver`):
the Raviente participation multiplier, the semaphore id allocator, the
broadcast fan-out, the session-manager shutdown path, the stage/object
registry scan, and the guild-membership lookup of the adjacent
persistence component.

Machine integers are modelled as `Nat` with explicit `% 2^32` where
uint32 overflow matters.  Go maps are modelled as association lists (the
collision scans and broadcasts iterate map entries in unspecified
order).  A Go runtime panic (integer division by zero) is modelled as
`Option.none`.
-/

namespace Erupe

/-- Modelled from the spec: a Semaphore is a named, capacity-tracked
event instance with a numeric id and the set of joined session
identities (`clients`).  The `Semaphore` struct itself is declared
outside the provided source files; only the fields read by the provided
code (`id`, `clients`) are modelled. -/
structure Semaphore where
  id : Nat
  clients : List Nat
  deriving Repr, DecidableEq

/-- Modelled from the spec: the scheduling/config counters of the
Raviente register group (`RavienteRegister` in the source); only
`maxPlayers` is read by the multiplier computation, the remaining
counters are carried verbatim from the struct. -/
structure RavienteRegister where
  nextTime : Nat
  startTime : Nat
  postTime : Nat
  killedTime : Nat
  ravienteType : Nat
  maxPlayers : Nat
  carveQuest : Nat
  register : List Nat

/-- RavienteState from the source: a fixed-size array of numeric slots. -/
structure RavienteState where
  stateData : List Nat

/-- RavienteSupport from the source. -/
structure RavienteSupport where
  supportData : List Nat

/-- Raviente from the source: the three guarded slot groups. -/
structure Raviente where
  register : RavienteRegister
  state : RavienteState
  support : RavienteSupport

/-- NewRaviente from the source: all counters zero, the three slot
arrays holding 5, 29 and 25 zero slots. -/
def NewRaviente : Raviente :=
  { register :=
      { nextTime := 0, startTime := 0, postTime := 0, killedTime := 0
        ravienteType := 0, maxPlayers := 0, carveQuest := 0
        register := List.replicate 5 0 }
    state := { stateData := List.replicate 29 0 }
    support := { supportData := List.replicate 25 0 } }

/-- Modelled from the spec: the portion of the channel-server state that
the multiplier computation reads.  `getRaviSemaphore` (declared outside
the provided source files) yields the semaphore associated with the
Raviente event, or nothing when no such semaphore exists; its result is
carried here as a field. -/
structure ServerRavi where
  raviSemaphore : Option Semaphore

/-- Modelled from the spec: given the registry's associated semaphore;
if no such semaphore exists the result is `none`.  The lookup itself is
declared outside the provided source files. -/
def getRaviSemaphore (s : ServerRavi) : Option Semaphore :=
  s.raviSemaphore

/-- GetRaviMultiplier from the source.  The Go function returns a
float64, but every produced value is a nonnegative integer (0, 1, or a
Go integer division converted to float), so the result is modelled as
`Option Nat`; `none` models the Go runtime panic raised by
`minPlayers / len(raviSema.clients)` when the semaphore has zero joined
sessions. -/
def GetRaviMultiplier (r : Raviente) (s : ServerRavi) : Option Nat :=
  match getRaviSemaphore s with
  | some raviSema =>
    let minPlayers : Nat := if r.register.maxPlayers > 8 then 24 else 4
    if raviSema.clients.length > minPlayers then
      some 1
    else if raviSema.clients.length = 0 then
      none
    else
      some (minPlayers / raviSema.clients.length)
  | none => some 0

/-- Object from the source (stage.go is outside the provided files, so
this is modelled from the spec): an entity with an id unique within its
stage and an owning character id. -/
structure Object where
  id : Nat
  ownerCharID : Nat
  deriving Repr, DecidableEq

/-- Modelled from the spec: a Stage is a named world zone owning a set
of objects; the object map is modelled as an association list from
object id to object. -/
structure Stage where
  key : String
  objects : List (Nat × Object)
  deriving Repr, DecidableEq

/-- Modelled from the spec: NewStage (declared outside the provided
source files) creates an empty stage with the given key. -/
def NewStage (key : String) : Stage :=
  { key := key, objects := [] }

/-- The seven stage keys pre-seeded by NewServer, in source order. -/
def newServerStageSeeds : List (String × Stage) :=
  [ ("sl1Ns200p0a0u0", NewStage "sl1Ns200p0a0u0")
  , ("sl1Ns211p0a0u0", NewStage "sl1Ns211p0a0u0")
  , ("sl1Ns260p0a0u0", NewStage "sl1Ns260p0a0u0")
  , ("sl1Ns262p0a0u0", NewStage "sl1Ns262p0a0u0")
  , ("sl1Ns263p0a0u0", NewStage "sl1Ns263p0a0u0")
  , ("sl2Ns379p0a0u0", NewStage "sl2Ns379p0a0u0")
  , ("sl1Ns462p0a0u0", NewStage "sl1Ns462p0a0u0") ]

/-- The semaphore-index cursor value NewServer starts from. -/
def newServerSemaphoreIndex : Nat := 7

/-- FindObjectByChar's inner loop from the source: scan one stage's
object map for an object owned by the character. -/
def findObjectInStage (stage : Stage) (charID : Nat) : Option Object :=
  (stage.objects.find? (fun p => p.2.ownerCharID == charID)).map Prod.snd

/-- FindObjectByChar from the source: scan the stages in iteration
order, returning the first object owned by the character, or `none`
when no stage holds one. -/
def FindObjectByChar (stages : List Stage) (charID : Nat) : Option Object :=
  match stages with
  | [] => none
  | stage :: rest =>
    match findObjectInStage stage charID with
    | some obj => some obj
    | none => FindObjectByChar rest charID


/-- The objects owned by a character in one stage, in iteration order. -/
def ownedInStage (stage : Stage) (charID : Nat) : List Object :=
  (stage.objects.map Prod.snd).filter (fun ob => ob.ownerCharID == charID)

/-- The objects owned by a character across a stage list, in iteration
order. -/
def ownedObjects (stages : List Stage) (charID : Nat) : List Object :=
  (stages.flatMap fun st => st.objects.map Prod.snd).filter
    (fun ob => ob.ownerCharID == charID)

/-- One advance of the semaphore-id cursor, from the source: increment
as a uint32 (wrapping past 2^32), and replace a wrapped-to-zero cursor
by 7 to skip the reserved indexes. -/
def step (idx : Nat) : Nat :=
  let i := (idx + 1) % 4294967296
  if i = 0 then 7 else i

/-- The loop of NextSemaphoreID from the source, with explicit fuel:
advance the cursor, scan every live semaphore for a collision with the
candidate id, and repeat on collision.  `none` means the fuel ran out
before a free id was found. -/
def nextSemaphoreIDAux : Nat → List Semaphore → Nat → Option Nat
  | 0, _, _ => none
  | Nat.succ fuel, semaphores, idx =>
    let i := step idx
    if semaphores.any (fun semaphore => semaphore.id == i) then
      nextSemaphoreIDAux fuel semaphores i
    else
      some i

/-- NextSemaphoreID from the source: the state acted on is the live
semaphore collection together with the cursor `semaphoreIndex`; the
returned id is also the new cursor value.  2^32 units of fuel are enough
to visit every assignable id once. -/
def NextSemaphoreID (semaphores : List Semaphore) (semaphoreIndex : Nat) : Option Nat :=
  nextSemaphoreIDAux 4294967296 semaphores semaphoreIndex

/-- Cursor iteration: `stepIter k idx` is the cursor after `k` advances. -/
def stepIter : Nat → Nat → Nat
  | 0, idx => idx
  | Nat.succ k, idx => stepIter k (step idx)

/-- Modelled from the spec: the per-connection session handle fields the
broadcast reads - the connection identity used as the session-map key
and the per-session protocol context consulted when building outbound
encodings.  The `Session` struct itself is declared outside the
provided source files. -/
structure Session where
  conn : Nat
  clientContext : Nat
  deriving Repr, DecidableEq

/-- Modelled from the spec: an outbound application message, with its
opcode and its body encoding as a function of a session's protocol
context (`pkt.Build(bf, session.clientContext)` appends the body for
that context). -/
structure MHFPacket where
  opcode : Nat
  build : Nat → List Nat

/-- Modelled from the spec: byteframe `WriteUint16` in the default
big-endian byte order, truncating the value to uint16. -/
def writeUint16BE (v : Nat) : List Nat :=
  [v % 65536 / 256, v % 256]

/-- Modelled from the spec: byteframe `WriteUint16` after `SetLE`:
little-endian, truncating the value to uint16. -/
def writeUint16LE (v : Nat) : List Nat :=
  [v % 256, v % 65536 / 256]

/-- Modelled from the spec: byteframe `WriteUint32` after `SetLE`:
little-endian, truncating the value to uint32. -/
def writeUint32LE (v : Nat) : List Nat :=
  [v % 256, v % 4294967296 / 256 % 256, v % 4294967296 / 65536 % 256,
   v % 4294967296 / 16777216]

/-- The bytes BroadcastMHF enqueues for one session: a fresh byteframe
holding the uint16 opcode header followed by the packet body built
against that session's client context. -/
def broadcastBytes (pkt : MHFPacket) (session : Session) : List Nat :=
  writeUint16BE pkt.opcode ++ pkt.build session.clientContext

/-- BroadcastMHF from the source: iterate the session set under the
server lock, skip the ignored session, and make one non-blocking
enqueue attempt (`QueueSendNonBlocking`) per remaining session.  The
result lists the enqueue attempts (session key, bytes) in iteration
order; `ignoredSession = none` models a nil ignored-session pointer,
which compares unequal to every live session. -/
def BroadcastMHF (sessions : List Session) (pkt : MHFPacket)
    (ignoredSession : Option Nat) : List (Nat × List Nat) :=
  sessions.filterMap fun session =>
    if ignoredSession = some session.conn then none
    else some (session.conn, broadcastBytes pkt session)

/-- The session-manager state that manageSessions and Shutdown act on:
the shutdown flag and the session set (guarded together by the server
lock in the source), whether the accept-handoff channel has been
closed, and whether the manager loop has returned.  Session-map entries
are tracked by their key, the connection identity; `none` models a nil
connection. -/
structure MgrState where
  isShuttingDown : Bool
  acceptClosed : Bool
  sessions : List (Option Nat)
  exited : Bool
  deriving Repr, DecidableEq

/-- NewServer's initial manager-relevant state: not shutting down, the
handoff channel open, no sessions, the loop running. -/
def initMgrState : MgrState :=
  { isShuttingDown := false, acceptClosed := false, sessions := [], exited := false }

/-- Go map insertion on the session-map key set. -/
def insertKey (k : Option Nat) (ks : List (Option Nat)) : List (Option Nat) :=
  if k ∈ ks then ks else k :: ks

/-- The events that the manager loop and Shutdown interleave. -/
inductive MgrEv where
  | shutdown
  | recvConn (c : Nat)
  | recvClosed
  | delConn (c : Nat)

/-- One step of the system, from the source.  `shutdown` is Shutdown():
set the flag under the lock, then close the handoff channel.
`recvConn` is manageSessions receiving a live connection (NewSession,
register into the session map, start).  `recvClosed` is manageSessions
receiving the nil connection a closed channel yields: per the source it
returns when the shutdown flag is set, and otherwise falls through and
registers a session keyed by the nil connection.  `delConn` removes a
session.  `none` marks an event that cannot fire: a receive only yields
nil once the channel is closed, a live connection is never handed off
after the close, and no step runs after the loop returned. -/
def mgrStep (st : MgrState) (ev : MgrEv) : Option MgrState :=
  if st.exited then none
  else
    match ev with
    | .shutdown => some { st with isShuttingDown := true, acceptClosed := true }
    | .recvConn c =>
      if st.acceptClosed then none
      else some { st with sessions := insertKey (some c) st.sessions }
    | .recvClosed =>
      if st.acceptClosed then
        if st.isShuttingDown then some { st with exited := true }
        else some { st with sessions := insertKey none st.sessions }
      else none
    | .delConn c =>
      some { st with sessions := st.sessions.filter (fun k => !(k == some c)) }

/-- Run the system from NewServer's initial state; events that cannot
fire are skipped. -/
def mgrRun (evs : List MgrEv) : MgrState :=
  evs.foldl (fun st ev => (mgrStep st ev).getD st) initMgrState

/-- The invariant linking the handoff-channel close to the shutdown
flag (Shutdown sets the flag before closing), plus the absence of any
session registered for a nil connection. -/
def MgrInv (st : MgrState) : Prop :=
  (st.acceptClosed = true → st.isShuttingDown = true) ∧ none ∉ st.sessions

/-- Modelled from the spec: the pascalstring `Uint16` helper (its
source file is not included): write the uint16 length of the string and
then its bytes; an empty text writes a zero length and no body. -/
def psUint16 (text : String) : List Nat :=
  writeUint16LE text.length ++ text.toList.map Char.toNat

/-- The MsgSysCastedBinary fields BroadcastRaviente fills and the claim
reads: the character id it is addressed from and the assembled payload.
The broadcast-type and message-type tags are constants declared outside
the provided source files and do not vary, so they are not carried. -/
structure CastedBinary where
  charID : Nat
  rawDataPayload : List Nat
  deriving Repr, DecidableEq

/-- The outcome of BroadcastRaviente: whether the unknown-type error
was logged, the selected localized text, and the message handed to
WorldcastMHF. -/
structure RavienteAnnouncement where
  loggedError : Bool
  text : String
  msg : CastedBinary
  deriving Repr, DecidableEq

/-- BroadcastRaviente from the source.  `dict` is the channel's
localization dictionary, a Go map whose lookup yields the empty string
for a missing key.  The switch selects the localized text for event
types 2-5 and logs an error for any other type, leaving the text empty;
either way the little-endian payload is assembled around the
length-prefixed text and the message is worldcast with the sentinel
character id 0. -/
def BroadcastRaviente (dict : String → String) (ip : Nat) (port : Nat)
    (stage : List Nat) (t : Nat) : RavienteAnnouncement :=
  let text : String :=
    if t = 2 then dict "ravienteBerserk"
    else if t = 3 then dict "ravienteExtreme"
    else if t = 4 then dict "ravienteExtremeLimited"
    else if t = 5 then dict "ravienteBerserkSmall"
    else ""
  let loggedError := !(t == 2 || t == 3 || t == 4 || t == 5)
  let payload :=
    writeUint16LE 0 ++ writeUint16LE 67 ++ writeUint16LE 3 ++
    psUint16 text ++ [95, 83, 0] ++
    writeUint32LE ip ++ writeUint16LE port ++ writeUint16LE 0 ++ stage
  { loggedError := loggedError, text := text
    msg := { charID := 0, rawDataPayload := payload } }

/-- GuildMember from the source: one guild-membership row; `joinedAt`
is a nullable timestamp. -/
structure GuildMember where
  guildID : Nat
  charID : Nat
  joinedAt : Option Nat
  souls : Nat
  rpToday : Nat
  rpYesterday : Nat
  name : String
  isApplicant : Bool
  orderIndex : Nat
  lastLogin : Nat
  recruiter : Bool
  avoidLeadership : Bool
  isLeader : Bool
  hrp : Nat
  gr : Nat
  weaponID : Nat
  weaponType : Nat

/-- Modelled from the spec: an opaque data-access error from the
persistence layer. -/
def DBError : Type := String

/-- GetCharacterGuildData from the source.  The database engine is
external, so the query outcome for the character (an error or the
result rows) and the StructScan step of
buildGuildMemberObjectFromDBResult (which can itself fail with a
data-access error) are taken as inputs.  A query error propagates; no
row (`rows.Next()` false) yields `(nil, nil)`, that is `ok none`;
otherwise the first row is scanned into a GuildMember. -/
def GetCharacterGuildData {Row : Type}
    (queryResult : Except DBError (List Row))
    (structScan : Row → Except DBError GuildMember) :
    Except DBError (Option GuildMember) :=
  match queryResult with
  | .error err => .error err
  | .ok rows =>
    match rows with
    | [] => .ok none
    | row :: _ =>
      match structScan row with
      | .error err => .error err
      | .ok member => .ok (some member)


/-- C1: GetRaviMultiplier returns 0 with no raviente semaphore; with one,
the threshold is 24 when maxPlayers > 8 and 4 otherwise, the result is 1
when occupancy strictly exceeds the threshold, and otherwise the floor of
threshold over occupancy. -/
theorem getRaviMultiplier_spec (r : Raviente) (s : ServerRavi) :
    (getRaviSemaphore s = none → GetRaviMultiplier r s = some 0) ∧
    (∀ sema, getRaviSemaphore s = some sema →
      ((if r.register.maxPlayers > 8 then 24 else 4) < sema.clients.length →
        GetRaviMultiplier r s = some 1) ∧
      (0 < sema.clients.length →
        sema.clients.length ≤ (if r.register.maxPlayers > 8 then 24 else 4) →
        GetRaviMultiplier r s =
          some ((if r.register.maxPlayers > 8 then 24 else 4) / sema.clients.length))) := by
  constructor
  · intro h
    simp [GetRaviMultiplier, h]
  · intro sema h
    constructor
    · intro hlen
      by_cases hmp : r.register.maxPlayers > 8
      · simp only [GetRaviMultiplier, h, if_pos hmp] at hlen ⊢
        rw [if_pos hlen]
      · simp only [GetRaviMultiplier, h, if_neg hmp] at hlen ⊢
        rw [if_pos hlen]
    · intro hpos hle
      by_cases hmp : r.register.maxPlayers > 8
      · simp only [GetRaviMultiplier, h, if_pos hmp] at hle ⊢
        rw [if_neg (by omega), if_neg (by omega)]
      · simp only [GetRaviMultiplier, h, if_neg hmp] at hle ⊢
        rw [if_neg (by omega), if_neg (by omega)]

theorem getRaviMultiplier_spec_witness :
    GetRaviMultiplier NewRaviente ⟨some ⟨1, [11, 12]⟩⟩ = some 2 := by
  have h := ((getRaviMultiplier_spec NewRaviente ⟨some ⟨1, [11, 12]⟩⟩).2 ⟨1, [11, 12]⟩ rfl).2
    (by decide) (by decide)
  simpa using h

/-- C9: the division in GetRaviMultiplier is unguarded: when the raviente
semaphore exists with zero joined sessions the divisor is zero (modelled
as `none`, the Go runtime panic); under the positive-occupancy
precondition the result is always defined. -/
theorem getRaviMultiplier_zero_divisor (r : Raviente) (s : ServerRavi) (sema : Semaphore)
    (h : getRaviSemaphore s = some sema) :
    (sema.clients = [] → GetRaviMultiplier r s = none) ∧
    (sema.clients ≠ [] → (GetRaviMultiplier r s).isSome = true) := by
  constructor
  · intro hnil
    simp only [GetRaviMultiplier, h, hnil]
    split <;> simp_all
  · intro hne
    have hpos : 0 < sema.clients.length := List.length_pos.mpr hne
    simp only [GetRaviMultiplier, h]
    by_cases hmp : r.register.maxPlayers > 8
    · rw [if_pos hmp]
      by_cases hlen : sema.clients.length > 24
      · rw [if_pos hlen]; rfl
      · rw [if_neg hlen, if_neg (by omega)]; rfl
    · rw [if_neg hmp]
      by_cases hlen : sema.clients.length > 4
      · rw [if_pos hlen]; rfl
      · rw [if_neg hlen, if_neg (by omega)]; rfl

theorem getRaviMultiplier_zero_divisor_witness :
    GetRaviMultiplier NewRaviente ⟨some ⟨1, []⟩⟩ = none :=
  (getRaviMultiplier_zero_divisor NewRaviente ⟨some ⟨1, []⟩⟩ ⟨1, []⟩ rfl).1 rfl

/-- C7: from the freshly constructed server's cursor value 7 with no live
semaphores, three sequential allocations return 8, 9 and 10, pairwise
distinct. -/
theorem nextSemaphoreID_scenario :
    NextSemaphoreID [] newServerSemaphoreIndex = some 8 ∧
    NextSemaphoreID [⟨8, []⟩] 8 = some 9 ∧
    NextSemaphoreID [⟨8, []⟩, ⟨9, []⟩] 9 = some 10 ∧
    [8, 9, 10].Nodup :=
  ⟨rfl, rfl, rfl, by decide⟩

/-- C8: NewServer pre-seeds exactly 7 stages, with pairwise-distinct
well-known stage keys. -/
theorem newServer_seeds_seven_stages :
    newServerStageSeeds.length = 7 ∧ (newServerStageSeeds.map Prod.fst).Nodup :=
  ⟨rfl, by decide⟩

/-- C10: a character with no guild-membership row (a successful query
returning no rows) yields no member and no error: `ok none`, not a
data-access failure. -/
theorem getCharacterGuildData_no_row {Row : Type}
    (structScan : Row → Except DBError GuildMember) :
    GetCharacterGuildData (Except.ok []) structScan = Except.ok none := rfl


/-- C5: BroadcastRaviente selects the localized string for event types
2, 3, 4 and 5; for every other type it logs an error and still sends,
via worldcast, a message with an empty text body, addressed with the
sentinel character id 0. -/
theorem broadcastRaviente_spec (dict : String → String) (ip port : Nat)
    (stage : List Nat) (t : Nat) :
    (t ≠ 2 → t ≠ 3 → t ≠ 4 → t ≠ 5 →
      (BroadcastRaviente dict ip port stage t).loggedError = true ∧
      (BroadcastRaviente dict ip port stage t).text = "" ∧
      (BroadcastRaviente dict ip port stage t).msg.charID = 0 ∧
      (BroadcastRaviente dict ip port stage t).msg.rawDataPayload =
        writeUint16LE 0 ++ writeUint16LE 67 ++ writeUint16LE 3 ++
        psUint16 "" ++ [95, 83, 0] ++
        writeUint32LE ip ++ writeUint16LE port ++ writeUint16LE 0 ++ stage) ∧
    ((BroadcastRaviente dict ip port stage 2).text = dict "ravienteBerserk") ∧
    ((BroadcastRaviente dict ip port stage 3).text = dict "ravienteExtreme") ∧
    ((BroadcastRaviente dict ip port stage 4).text = dict "ravienteExtremeLimited") ∧
    ((BroadcastRaviente dict ip port stage 5).text = dict "ravienteBerserkSmall") := by
  refine ⟨?_, rfl, rfl, rfl, rfl⟩
  intro h2 h3 h4 h5
  simp [BroadcastRaviente, h2, h3, h4, h5]

theorem broadcastRaviente_spec_witness :
    (BroadcastRaviente (fun _ => "x") 1 2 [9] 6).loggedError = true ∧
    (BroadcastRaviente (fun _ => "x") 1 2 [9] 6).text = "" ∧
    (BroadcastRaviente (fun _ => "x") 1 2 [9] 6).msg.charID = 0 ∧
    (BroadcastRaviente (fun _ => "x") 1 2 [9] 6).msg.rawDataPayload =
      writeUint16LE 0 ++ writeUint16LE 67 ++ writeUint16LE 3 ++
      psUint16 "" ++ [95, 83, 0] ++
      writeUint32LE 1 ++ writeUint16LE 2 ++ writeUint16LE 0 ++ [9] :=
  (broadcastRaviente_spec (fun _ => "x") 1 2 [9] 6).1
    (by decide) (by decide) (by decide) (by decide)

/-- The closure/flag invariant together with the nil-free session map is
preserved by every step of the session-manager system. -/
theorem mgrStep_inv {st st' : MgrState} {ev : MgrEv} (hinv : MgrInv st)
    (h : mgrStep st ev = some st') : MgrInv st' := by
  obtain ⟨hflag, hnil⟩ := hinv
  cases ev with
  | shutdown =>
    simp only [mgrStep] at h
    split at h
    · exact Option.noConfusion h
    obtain rfl := Option.some.inj h
    exact ⟨fun _ => rfl, hnil⟩
  | recvConn c =>
    simp only [mgrStep] at h
    split at h
    · exact Option.noConfusion h
    split at h
    · exact Option.noConfusion h
    obtain rfl := Option.some.inj h
    refine ⟨fun hcc => hflag hcc, ?_⟩
    simp only [insertKey]
    split
    · exact hnil
    · intro hmem
      rcases List.mem_cons.mp hmem with h1 | h1
      · exact Option.noConfusion h1
      · exact hnil h1
  | recvClosed =>
    simp only [mgrStep] at h
    split at h
    · exact Option.noConfusion h
    split at h
    case isTrue hc =>
      rw [hflag hc] at h
      simp only [if_true] at h
      obtain rfl := Option.some.inj h
      exact ⟨fun _ => rfl, hnil⟩
    case isFalse hc => exact Option.noConfusion h
  | delConn c =>
    simp only [mgrStep] at h
    split at h
    · exact Option.noConfusion h
    obtain rfl := Option.some.inj h
    exact ⟨fun hcc => hflag hcc, fun hmem => hnil (List.mem_of_mem_filter hmem)⟩

/-- Every state reachable from NewServer's initial state satisfies the
invariant. -/
theorem mgrRun_inv (evs : List MgrEv) : MgrInv (mgrRun evs) := by
  have hgen : ∀ (l : List MgrEv) (st : MgrState), MgrInv st →
      MgrInv (l.foldl (fun st ev => (mgrStep st ev).getD st) st) := by
    intro l
    induction l with
    | nil => intro st h; exact h
    | cons ev rest ih =>
      intro st h
      simp only [List.foldl_cons]
      apply ih
      cases hstep : mgrStep st ev with
      | none => simpa [hstep] using h
      | some st' => simpa [hstep] using mgrStep_inv h hstep
  exact hgen evs initMgrState ⟨by simp [initMgrState], by simp [initMgrState]⟩

/-- C4: in every reachable state, receiving the nil connection a closed
handoff channel yields makes the manager exit its loop (the shutdown
flag is necessarily set, Shutdown having set it before closing), with
the session set untouched; no session keyed by a nil connection is ever
registered. -/
theorem manageSessions_shutdown_spec (evs : List MgrEv) (st' : MgrState)
    (h : mgrStep (mgrRun evs) MgrEv.recvClosed = some st') :
    st'.exited = true ∧ st'.sessions = (mgrRun evs).sessions ∧
    none ∉ st'.sessions := by
  obtain ⟨hflag, hnil⟩ := mgrRun_inv evs
  simp only [mgrStep] at h
  split at h
  · exact Option.noConfusion h
  split at h
  case isTrue hc =>
    rw [hflag hc] at h
    simp only [if_true] at h
    obtain rfl := Option.some.inj h
    exact ⟨rfl, rfl, hnil⟩
  case isFalse hc => exact Option.noConfusion h

theorem manageSessions_shutdown_spec_witness :
    MgrState.exited ⟨true, true, [], true⟩ = true ∧
    MgrState.sessions ⟨true, true, [], true⟩ = (mgrRun [MgrEv.shutdown]).sessions ∧
    none ∉ MgrState.sessions ⟨true, true, [], true⟩ :=
  manageSessions_shutdown_spec [MgrEv.shutdown] ⟨true, true, [], true⟩ rfl

theorem findObjectInStage_none_iff {stage : Stage} {charID : Nat} :
    findObjectInStage stage charID = none ↔ ownedInStage stage charID = [] := by
  unfold findObjectInStage ownedInStage
  rw [Option.map_eq_none', List.find?_eq_none, List.filter_eq_nil_iff]
  constructor
  · intro h a ha
    rcases List.mem_map.mp ha with ⟨p, hp, rfl⟩
    exact h p hp
  · intro h p hp
    exact h p.2 (List.mem_map_of_mem _ hp)

theorem findObjectInStage_mem {stage : Stage} {charID : Nat} {obj : Object}
    (h : findObjectInStage stage charID = some obj) :
    obj ∈ ownedInStage stage charID := by
  unfold findObjectInStage at h
  rcases Option.map_eq_some'.mp h with ⟨p, hfind, rfl⟩
  have hq := List.find?_some hfind
  exact List.mem_filter.mpr ⟨List.mem_map_of_mem _ (List.mem_of_find?_eq_some hfind), hq⟩

theorem ownedObjects_cons (st : Stage) (rest : List Stage) (charID : Nat) :
    ownedObjects (st :: rest) charID =
      ownedInStage st charID ++ ownedObjects rest charID := by
  simp [ownedObjects, ownedInStage, List.filter_append]

theorem findObjectByChar_eq_none {stages : List Stage} {charID : Nat}
    (h : ownedObjects stages charID = []) :
    FindObjectByChar stages charID = none := by
  induction stages with
  | nil => rfl
  | cons st rest ih =>
    rw [ownedObjects_cons] at h
    rcases List.append_eq_nil.mp h with ⟨h1, h2⟩
    unfold FindObjectByChar
    rw [findObjectInStage_none_iff.mpr h1]
    exact ih h2

theorem findObjectByChar_of_singleton {stages : List Stage} {charID : Nat} {obj : Object}
    (h : ownedObjects stages charID = [obj]) :
    FindObjectByChar stages charID = some obj := by
  induction stages with
  | nil => simp [ownedObjects] at h
  | cons st rest ih =>
    rw [ownedObjects_cons] at h
    unfold FindObjectByChar
    cases hfind : findObjectInStage st charID with
    | none =>
      rw [findObjectInStage_none_iff.mp hfind, List.nil_append] at h
      exact ih h
    | some o =>
      have hmem : o ∈ ownedInStage st charID := findObjectInStage_mem hfind
      have ho : o ∈ ([obj] : List Object) := h ▸ List.mem_append_left _ hmem
      rw [List.mem_singleton.mp ho]

/-- C6: FindObjectByChar yields `none` for a character owning no object
in any stage; when the character owns exactly one object across all
stages it yields that object, and does so for every reordering of the
stage iteration. -/
theorem findObjectByChar_spec (stages : List Stage) (charID : Nat) :
    (ownedObjects stages charID = [] → FindObjectByChar stages charID = none) ∧
    (∀ obj, ownedObjects stages charID = [obj] →
      FindObjectByChar stages charID = some obj ∧
      ∀ stages2, stages.Perm stages2 → FindObjectByChar stages2 charID = some obj) := by
  refine ⟨findObjectByChar_eq_none, fun obj h => ⟨findObjectByChar_of_singleton h, ?_⟩⟩
  intro stages2 hperm
  have hp : (ownedObjects stages charID).Perm (ownedObjects stages2 charID) :=
    (hperm.flatMap_right _).filter _
  rw [h] at hp
  exact findObjectByChar_of_singleton (List.perm_singleton.mp hp.symm)

theorem findObjectByChar_spec_witness :
    FindObjectByChar [NewStage "sl1Ns200p0a0u0"] 42 = none ∧
    FindObjectByChar [NewStage "sl1Ns200p0a0u0",
      { key := "sl1Ns211p0a0u0", objects := [(1, ⟨1, 42⟩)] }] 42 = some ⟨1, 42⟩ :=
  ⟨(findObjectByChar_spec [NewStage "sl1Ns200p0a0u0"] 42).1 (by decide),
   ((findObjectByChar_spec [NewStage "sl1Ns200p0a0u0",
      { key := "sl1Ns211p0a0u0", objects := [(1, ⟨1, 42⟩)] }] 42).2 ⟨1, 42⟩ (by decide)).1⟩


theorem broadcastMHF_cons (s : Session) (rest : List Session) (pkt : MHFPacket)
    (ignoredSession : Option Nat) :
    BroadcastMHF (s :: rest) pkt ignoredSession =
      if ignoredSession = some s.conn then BroadcastMHF rest pkt ignoredSession
      else (s.conn, broadcastBytes pkt s) :: BroadcastMHF rest pkt ignoredSession := by
  by_cases h : ignoredSession = some s.conn
  · rw [if_pos h]
    simp only [BroadcastMHF, List.filterMap_cons, if_pos h]
  · rw [if_neg h]
    simp only [BroadcastMHF, List.filterMap_cons, if_neg h]

theorem broadcastMHF_count_zero {sessions : List Session} {pkt : MHFPacket}
    {ignoredSession : Option Nat} {c : Nat}
    (h : c ∉ sessions.map Session.conn) :
    ((BroadcastMHF sessions pkt ignoredSession).map Prod.fst).count c = 0 := by
  induction sessions with
  | nil => rfl
  | cons s rest ih =>
    simp only [List.map_cons, List.mem_cons, not_or] at h
    obtain ⟨hne, hrest⟩ := h
    rw [broadcastMHF_cons]
    split
    · exact ih hrest
    · simp only [List.map_cons, List.count_cons]
      rw [ih hrest]
      simp [Ne.symm hne]

/-- C3: one channel broadcast makes exactly one enqueue attempt, carrying
the encoding built against that session's protocol context, for every
session in the set other than the excluded one, and makes no attempt for
the excluded session; no session is enqueued to twice. -/
theorem broadcastMHF_spec (sessions : List Session) (pkt : MHFPacket)
    (ignoredSession : Option Nat)
    (hnd : (sessions.map Session.conn).Nodup) :
    ∀ session ∈ sessions,
      (ignoredSession = some session.conn →
        ((BroadcastMHF sessions pkt ignoredSession).map Prod.fst).count session.conn = 0) ∧
      (ignoredSession ≠ some session.conn →
        ((BroadcastMHF sessions pkt ignoredSession).map Prod.fst).count session.conn = 1 ∧
        (session.conn, broadcastBytes pkt session) ∈ BroadcastMHF sessions pkt ignoredSession) := by
  induction sessions with
  | nil => intro session hmem; cases hmem
  | cons s rest ih =>
    simp only [List.map_cons, List.nodup_cons] at hnd
    obtain ⟨hnotin, hndrest⟩ := hnd
    intro session hmem
    rcases List.mem_cons.mp hmem with rfl | hmem2
    · constructor
      · intro hig
        rw [broadcastMHF_cons, if_pos hig]
        exact broadcastMHF_count_zero hnotin
      · intro hig
        rw [broadcastMHF_cons, if_neg hig]
        refine ⟨?_, List.mem_cons_self _ _⟩
        simp only [List.map_cons, List.count_cons]
        rw [broadcastMHF_count_zero hnotin]
        simp
    · have hconn_ne : session.conn ≠ s.conn := by
        intro heq
        exact hnotin (heq ▸ List.mem_map_of_mem Session.conn hmem2)
      have hrest := ih hndrest session hmem2
      constructor
      · intro hig
        rw [broadcastMHF_cons]
        split
        · exact hrest.1 hig
        · simp only [List.map_cons, List.count_cons]
          rw [hrest.1 hig]
          simp [Ne.symm hconn_ne]
      · intro hig
        have h1 := hrest.2 hig
        rw [broadcastMHF_cons]
        split
        · exact h1
        · refine ⟨?_, List.mem_cons_of_mem _ h1.2⟩
          simp only [List.map_cons, List.count_cons]
          rw [h1.1]
          simp [Ne.symm hconn_ne]

theorem broadcastMHF_spec_witness :
    ((BroadcastMHF [⟨1, 10⟩, ⟨2, 20⟩] ⟨7, fun ctx => [ctx]⟩ (some 2)).map Prod.fst).count 1 = 1 ∧
    (1, broadcastBytes ⟨7, fun ctx => [ctx]⟩ ⟨1, 10⟩) ∈
      BroadcastMHF [⟨1, 10⟩, ⟨2, 20⟩] ⟨7, fun ctx => [ctx]⟩ (some 2) :=
  (broadcastMHF_spec [⟨1, 10⟩, ⟨2, 20⟩] ⟨7, fun ctx => [ctx]⟩ (some 2)
    (by decide) ⟨1, 10⟩ (by simp)).2 (by simp)


theorem step_valid {idx : Nat} (h7 : 7 ≤ idx) (hlt : idx < 4294967296) :
    7 ≤ step idx ∧ step idx < 4294967296 := by
  unfold step
  by_cases h : (idx + 1) % 4294967296 = 0
  · rw [if_pos h]
    omega
  · rw [if_neg h]
    omega

theorem stepIter_formula : ∀ (k idx : Nat), 7 ≤ idx → idx < 4294967296 →
    stepIter k idx = 7 + ((idx - 7 + k) % 4294967289) := by
  intro k
  induction k with
  | zero =>
    intro idx h7 hlt
    unfold stepIter
    omega
  | succ k ih =>
    intro idx h7 hlt
    have hs := step_valid h7 hlt
    rw [stepIter, ih (step idx) hs.1 hs.2]
    unfold step
    by_cases h : (idx + 1) % 4294967296 = 0
    · rw [if_pos h]
      omega
    · rw [if_neg h]
      omega

theorem stepIter_reaches {idx v : Nat}
    (hidx7 : 7 ≤ idx) (hidxlt : idx < 4294967296)
    (hv7 : 7 ≤ v) (hvlt : v < 4294967296) :
    ∃ k, 1 ≤ k ∧ k ≤ 4294967289 ∧ stepIter k idx = v := by
  refine ⟨(v - 7 + 4294967289 - (idx - 7) - 1) % 4294967289 + 1, by omega, by omega, ?_⟩
  rw [stepIter_formula _ idx hidx7 hidxlt]
  omega

theorem nextSemaphoreIDAux_succeeds :
    ∀ (k : Nat), 1 ≤ k → ∀ (fuel idx : Nat) (semaphores : List Semaphore) (v : Nat),
    7 ≤ idx → idx < 4294967296 →
    stepIter k idx = v → (∀ se ∈ semaphores, se.id ≠ v) → k ≤ fuel →
    ∃ r, nextSemaphoreIDAux fuel semaphores idx = some r ∧
      (∀ se ∈ semaphores, se.id ≠ r) ∧ 7 ≤ r ∧ r < 4294967296 := by
  intro k
  induction k with
  | zero => intro h; cases h
  | succ k ih =>
    intro _ fuel idx semaphores v h7 hlt hreach hfree hkf
    obtain ⟨f, rfl⟩ : ∃ f, fuel = f + 1 := ⟨fuel - 1, by omega⟩
    have hs := step_valid h7 hlt
    rw [show nextSemaphoreIDAux (f + 1) semaphores idx =
        (if semaphores.any (fun semaphore => semaphore.id == step idx) then
          nextSemaphoreIDAux f semaphores (step idx)
        else some (step idx)) from rfl]
    by_cases hcol : semaphores.any (fun semaphore => semaphore.id == step idx) = true
    · rw [if_pos hcol]
      cases k with
      | zero =>
        exfalso
        have hv : step idx = v := hreach
        rcases List.any_eq_true.mp hcol with ⟨se, hse, hid⟩
        exact hfree se hse (hv ▸ beq_iff_eq.mp hid)
      | succ k2 =>
        exact ih (by omega) f (step idx) semaphores v hs.1 hs.2 hreach hfree (by omega)
    · rw [if_neg hcol]
      refine ⟨step idx, rfl, ?_, hs.1, hs.2⟩
      intro se hse heq
      exact hcol (List.any_eq_true.mpr ⟨se, hse, by simp [heq]⟩)

/-- C2: when a free assignable id exists, NextSemaphoreID returns an id
held by no live semaphore and never one of the reserved ids 0-6, and the
cursor wraps past the top of the uint32 range back to 7, the first
non-reserved value, not to 0. -/
theorem nextSemaphoreID_spec (semaphores : List Semaphore) (semaphoreIndex : Nat)
    (h7 : 7 ≤ semaphoreIndex) (hlt : semaphoreIndex < 4294967296)
    (hfree : ∃ v, 7 ≤ v ∧ v < 4294967296 ∧ ∀ se ∈ semaphores, se.id ≠ v) :
    (∃ r, NextSemaphoreID semaphores semaphoreIndex = some r ∧
      (∀ se ∈ semaphores, se.id ≠ r) ∧ 7 ≤ r ∧ r < 4294967296) ∧
    step 4294967295 = 7 ∧ (7 : Nat) ≠ 0 := by
  obtain ⟨v, hv7, hvlt, hvfree⟩ := hfree
  obtain ⟨k, hk1, hkN, hreach⟩ := stepIter_reaches h7 hlt hv7 hvlt
  refine ⟨?_, by decide, by decide⟩
  exact nextSemaphoreIDAux_succeeds k hk1 4294967296 semaphoreIndex semaphores v
    h7 hlt hreach hvfree (by omega)

theorem nextSemaphoreID_spec_witness :
    (∃ r, NextSemaphoreID [⟨8, []⟩] 8 = some r ∧
      (∀ se ∈ ([⟨8, []⟩] : List Semaphore), se.id ≠ r) ∧ 7 ≤ r ∧ r < 4294967296) ∧
    step 4294967295 = 7 ∧ (7 : Nat) ≠ 0 :=
  nextSemaphoreID_spec [⟨8, []⟩] 8 (by decide) (by decide)
    ⟨9, by decide, by decide, by decide⟩

end Erupe
